import Mathlib

/-!
Verification of the contextual flow-prediction / fallback-retrieval engine of the
DeepCommerce dashboard (`src/journey_cache_loader.py` plus the zone-traffic
aggregation of `main.py`).

The pandas DataFrame of zone transitions is embedded as a `List Row`; an absent
table (`None`) is `Option (List Row)`.  Float arithmetic is embedded as exact
rational arithmetic (`Rat`); integer counts are `Nat`.  The Korean fallback
messages produced by `get_filtered_transitions_with_fallback` are embedded as a
structured `Notice` value recording exactly which substitution the message names.
The resolver itself raises nothing, but the flow calculators access the
`from_zone` / `to_zone` column of whatever frame the resolver returned; on the
two empty paths that frame is the column-less `pd.DataFrame()` and pandas
raises `KeyError`.  The `Frame` type and the `Except`-valued checked
calculators model that error path; the plain `List Row` calculator embeddings
identify the column-less frame with an empty row list (collapsing the error
path) and are therefore meaningful only where the frame carries rows.
-/

/-- A row of the `zone_transitions` table (schema of `load_zone_transitions`):
columns `from_zone, to_zone, weekday, weather, time_bucket, count,
avg_dwell_time, probability`. -/
structure Row where
  from_zone : String
  to_zone : String
  weekday : Nat
  weather : String
  time_bucket : String
  count : Nat
  avg_dwell_time : Rat
  probability : Rat
deriving DecidableEq

/-- Lexicographic comparison of two lists of naturals (strict). -/
def natLexLt : List Nat → List Nat → Bool
  | _, [] => false
  | [], _ :: _ => true
  | a :: as, b :: bs => if a < b then true else if b < a then false else natLexLt as bs

/-- The Unicode code points of a string. -/
def strCodes (s : String) : List Nat := s.data.map Char.toNat

/-- Python/pandas string comparison: lexicographic on Unicode code points.
This is the order pandas uses when `groupby` sorts its group keys. -/
def strLt (a b : String) : Bool := natLexLt (strCodes a) (strCodes b)

/-- Body of `get_filtered_transitions`: the body of the sequential filters
(`weekday`, then `weather`, then `time_bucket`; a `None` dimension is not
filtered).  Shared verbatim with the inner `try_filter` of the fallback
resolver. -/
def applyFilters (rows : List Row) (wd : Option Nat) (wt tb : Option String) : List Row :=
  let f1 := match wd with
    | none => rows
    | some w => rows.filter (fun r => r.weekday == w)
  let f2 := match wt with
    | none => f1
    | some w => f1.filter (fun r => r.weather == w)
  match tb with
  | none => f2
  | some t => f2.filter (fun r => r.time_bucket == t)

/-- Embedding of `get_filtered_transitions(transitions_df, weekday, weather, time_bucket)`:
returns an empty frame when the table is absent (`None`) or empty, otherwise
the sequentially filtered rows. -/
def get_filtered_transitions (transitions_df : Option (List Row)) (weekday : Option Nat)
    (weather time_bucket : Option String) : List Row :=
  match transitions_df with
  | none => []
  | some rows => if rows.length = 0 then [] else applyFilters rows weekday weather time_bucket

/-- Structured content of the fallback message strings built by
`get_filtered_transitions_with_fallback`: which substitution the notice names.
`weatherSub orig alt` is the step-2 message (weather `orig` replaced by `alt`),
`timeSub` step 3, `bothSub` step 4 (weather and time both substituted, the
message also names the weekday), `weekdayOnly` the step-5 last resort, `noData`
the terminal step-6 message. -/
inductive Notice where
  | weatherSub (orig : Option String) (alt : String)
  | timeSub (orig : Option String) (alt : String)
  | bothSub (wd : Option Nat) (origW origT : Option String) (altW altT : String)
  | weekdayOnly (d : Nat)
  | noData
deriving DecidableEq

/-- Embedding of `transitions_df[weather].unique().tolist()`: the weather values present in
the full table (used only through membership). -/
def availableWeathers (rows : List Row) : List String := (rows.map (fun r => r.weather)).dedup

/-- Embedding of `transitions_df[time_bucket].unique().tolist()`. -/
def availableTimes (rows : List Row) : List String := (rows.map (fun r => r.time_bucket)).dedup

/-- Weather fallback candidate list of the code: the hardcoded order
`[Cloudy, Clear, Rainy]`, filtered by exclusion of the requested value and
availability in the table only when a weather value was requested. -/
def codeWeatherOrder (weather : Option String) (rows : List Row) : List String :=
  match weather with
  | none => ["Cloudy", "Clear", "Rainy"]
  | some w => ["Cloudy", "Clear", "Rainy"].filter
      (fun x => x != w && (availableWeathers rows).contains x)

/-- Time fallback candidate list of the code: hardcoded order
`[afternoon, morning, evening]`, filtered only when a time was requested. -/
def codeTimeOrder (time_bucket : Option String) (rows : List Row) : List String :=
  match time_bucket with
  | none => ["afternoon", "morning", "evening"]
  | some t => ["afternoon", "morning", "evening"].filter
      (fun x => x != t && (availableTimes rows).contains x)

/-- Modelled from the words of the spec (§4.1 step 2): the fallback order
`[Cloudy, Clear, Rainy]` "excluding the originally requested value and
restricted to weather values actually present in the full table", with the
exclusion/restriction applied unconditionally. -/
def specWeatherOrder (weather : Option String) (rows : List Row) : List String :=
  ["Cloudy", "Clear", "Rainy"].filter
    (fun x => some x != weather && (availableWeathers rows).contains x)

/-- Modelled from the words of the spec (§4.1 step 3): order
`[afternoon, morning, evening]` under the same exclusion/restriction rule. -/
def specTimeOrder (time_bucket : Option String) (rows : List Row) : List String :=
  ["afternoon", "morning", "evening"].filter
    (fun x => some x != time_bucket && (availableTimes rows).contains x)

/-- The step-2 candidate triples (substitute weather, hold weekday and time). -/
def weatherCands (wOrder : List String) (wt tb : Option String) :
    List (Option String × Option String × Notice) :=
  wOrder.map (fun w => (some w, tb, Notice.weatherSub wt w))

/-- The step-3 candidate triples (substitute time, hold weekday and weather). -/
def timeCands (tOrder : List String) (wt tb : Option String) :
    List (Option String × Option String × Notice) :=
  tOrder.map (fun t => (wt, some t, Notice.timeSub tb t))

/-- The step-4 candidate triples: cross product, weather outer loop, time inner
loop. -/
def bothCands (wOrder tOrder : List String) (wd : Option Nat) (wt tb : Option String) :
    List (Option String × Option String × Notice) :=
  wOrder.flatMap (fun w => tOrder.map (fun t => (some w, some t, Notice.bothSub wd wt tb w t)))

/-- Scans an ordered list of `(weather, time, notice)` candidates (weekday held
fixed), returning the first candidate whose filter result is non-empty together
with its notice — the common shape of the three fallback loops. -/
def tryCandidates (rows : List Row) (wd : Option Nat) :
    List (Option String × Option String × Notice) → Option (List Row × Notice)
  | [] => none
  | c :: rest =>
    let result := applyFilters rows wd c.1 c.2.1
    if 0 < result.length then some (result, c.2.2) else tryCandidates rows wd rest

/-- The fallback resolver skeleton, parameterised by how the weather/time
candidate orders are produced (the way of the code versus the words of the spec):
exact match, then the three substitution phases in order, then the
weekday-only last resort, then the terminal no-data notice. -/
def resolveWith (mkW mkT : Option String → List Row → List String)
    (transitions_df : Option (List Row)) (weekday : Option Nat)
    (weather time_bucket : Option String) : List Row × Option Notice :=
  match transitions_df with
  | none => ([], none)
  | some rows =>
    if rows.length = 0 then ([], none)
    else
      let exact := applyFilters rows weekday weather time_bucket
      if 0 < exact.length then (exact, none)
      else
        let wOrder := mkW weather rows
        let tOrder := mkT time_bucket rows
        match tryCandidates rows weekday
            (weatherCands wOrder weather time_bucket ++
             timeCands tOrder weather time_bucket ++
             bothCands wOrder tOrder weekday weather time_bucket) with
        | some rn => (rn.1, some rn.2)
        | none =>
          match weekday with
          | some d =>
            let result := applyFilters rows (some d) none none
            if 0 < result.length then (result, some (Notice.weekdayOnly d))
            else ([], some Notice.noData)
          | none => ([], some Notice.noData)

/-- Embedding of `get_filtered_transitions_with_fallback(transitions_df, weekday, weather,
time_bucket)`: the context resolver of the source, with its candidate orders. -/
def get_filtered_transitions_with_fallback (transitions_df : Option (List Row))
    (weekday : Option Nat) (weather time_bucket : Option String) : List Row × Option Notice :=
  resolveWith codeWeatherOrder codeTimeOrder transitions_df weekday weather time_bucket

/-- The resolver as described by the words of the spec (§4.1), with the
exclusion/availability restriction of the candidate orders applied in every
case.  Used only to compare against the resolver of the code. -/
def resolveSpec (transitions_df : Option (List Row)) (weekday : Option Nat)
    (weather time_bucket : Option String) : List Row × Option Notice :=
  resolveWith specWeatherOrder specTimeOrder transitions_df weekday weather time_bucket

/-- Insert a key into a strictly-sorted (by `strLt`) duplicate-free list. -/
def insKey (x : String) : List String → List String
  | [] => [x]
  | y :: ys => if strLt x y then x :: y :: ys else if x = y then y :: ys else y :: insKey x ys

/-- The distinct keys of a list sorted ascending by code-point order: the index
that pandas `groupby(column)` (with its default `sort=True`) produces. -/
def sortedKeys (l : List String) : List String := l.foldr insKey []

/-- Embedding of `rows[count].sum()`. -/
def sumCounts (rows : List Row) : Nat := (rows.map (fun r => r.count)).sum

/-- Embedding of `sub.groupby(key)[count].sum() / total` followed by `.to_dict()`:
an association list from each observed key (in the sorted key order of pandas) to its
group count sum divided by `total`, as exact rationals. -/
def groupedProbs (sub : List Row) (key : Row → String) : List (String × Rat) :=
  let total := sumCounts sub
  (sortedKeys (sub.map key)).map
    (fun k => (k, (sumCounts (sub.filter (fun r => key r == k)) : Rat) / (total : Rat)))

/-- Embedding of `get_zone_outflow_with_fallback(zone, transitions_df, weekday, weather,
time_bucket)`: resolve the context with fallback, keep rows leaving `zone`,
and normalise their counts by destination.  Caution: the `[]` value of the
resolver stands for the column-less `pd.DataFrame()`, on which the column
access of the real code raises `KeyError`; this total embedding collapses that
error path (see `get_zone_outflow_with_fallback_checked` for the faithful
fallible version). -/
def get_zone_outflow_with_fallback (zone : String) (transitions_df : Option (List Row))
    (weekday : Option Nat) (weather time_bucket : Option String) :
    List (String × Rat) × Option Notice :=
  let res := get_filtered_transitions_with_fallback transitions_df weekday weather time_bucket
  let zone_outflow := res.1.filter (fun r => r.from_zone == zone)
  if zone_outflow.length = 0 then ([], res.2)
  else (groupedProbs zone_outflow (fun r => r.to_zone), res.2)

/-- Embedding of `get_zone_inflow_with_fallback`: symmetric, rows entering `zone`, grouped
by source zone.  Same caution as for the outflow variant: the error raised by
the `to_zone` access on the column-less frame is collapsed here and modelled by
`get_zone_inflow_with_fallback_checked`. -/
def get_zone_inflow_with_fallback (zone : String) (transitions_df : Option (List Row))
    (weekday : Option Nat) (weather time_bucket : Option String) :
    List (String × Rat) × Option Notice :=
  let res := get_filtered_transitions_with_fallback transitions_df weekday weather time_bucket
  let zone_inflow := res.1.filter (fun r => r.to_zone == zone)
  if zone_inflow.length = 0 then ([], res.2)
  else (groupedProbs zone_inflow (fun r => r.from_zone), res.2)

/-- Embedding of `get_zone_outflow_probabilities`: the plain (non-fallback) outflow
distribution over `get_filtered_transitions`.  As above, the `KeyError` the
real code raises when `get_filtered_transitions` returns the column-less
`pd.DataFrame()` (absent or empty input table) is collapsed; theorems use this
definition only under hypotheses placing the input in the raise-free region. -/
def get_zone_outflow_probabilities (zone : String) (transitions_df : Option (List Row))
    (weekday : Option Nat) (weather time_bucket : Option String) : List (String × Rat) :=
  let filtered := get_filtered_transitions transitions_df weekday weather time_bucket
  let zone_outflow := filtered.filter (fun r => r.from_zone == zone)
  if zone_outflow.length = 0 then []
  else groupedProbs zone_outflow (fun r => r.to_zone)

/-- Embedding of `get_zone_inflow_sources`: the plain (non-fallback) inflow
distribution, with the same column-less-frame collapse as the outflow variant. -/
def get_zone_inflow_sources (zone : String) (transitions_df : Option (List Row))
    (weekday : Option Nat) (weather time_bucket : Option String) : List (String × Rat) :=
  let filtered := get_filtered_transitions transitions_df weekday weather time_bucket
  let zone_inflow := filtered.filter (fun r => r.to_zone == zone)
  if zone_inflow.length = 0 then []
  else groupedProbs zone_inflow (fun r => r.from_zone)

/-- A pandas DataFrame as the calculators receive it from the resolver: either
the fresh column-less `pd.DataFrame()` (returned on the absent/empty-input and
exhausted-fallback paths) or a frame carrying the transitions schema and a list
of rows. -/
inductive Frame where
  | columnless
  | table (rows : List Row)
deriving DecidableEq

/-- Embedding of `get_filtered_transitions_with_fallback` that keeps track of
the frame schema: identical branch structure to the resolver above, except that
the two `pd.DataFrame()` returns (absent/empty input, exhausted fallback) are
`Frame.columnless` and every other return carries its rows as `Frame.table`. -/
def get_filtered_transitions_with_fallback_frames (transitions_df : Option (List Row))
    (weekday : Option Nat) (weather time_bucket : Option String) : Frame × Option Notice :=
  match transitions_df with
  | none => (Frame.columnless, none)
  | some rows =>
    if rows.length = 0 then (Frame.columnless, none)
    else
      let exact := applyFilters rows weekday weather time_bucket
      if 0 < exact.length then (Frame.table exact, none)
      else
        let wOrder := codeWeatherOrder weather rows
        let tOrder := codeTimeOrder time_bucket rows
        match tryCandidates rows weekday
            (weatherCands wOrder weather time_bucket ++
             timeCands tOrder weather time_bucket ++
             bothCands wOrder tOrder weekday weather time_bucket) with
        | some rn => (Frame.table rn.1, some rn.2)
        | none =>
          match weekday with
          | some d =>
            let result := applyFilters rows (some d) none none
            if 0 < result.length then (Frame.table result, some (Notice.weekdayOnly d))
            else (Frame.columnless, some Notice.noData)
          | none => (Frame.columnless, some Notice.noData)

/-- Embedding of the boolean-mask column access
`filtered[filtered[col] == zone]`: pandas raises `KeyError` when `filtered` is
the column-less `pd.DataFrame()`, and otherwise filters the rows. -/
def filterByCol (f : Frame) (p : Row → Bool) : Except String (List Row) :=
  match f with
  | Frame.columnless => Except.error "KeyError"
  | Frame.table rows => Except.ok (rows.filter p)

/-- Embedding of `get_zone_outflow_with_fallback` with the error path of the
column access modelled: the result is a `KeyError` exactly when the resolver
handed back the column-less empty frame, and otherwise the pair the total
embedding computes. -/
def get_zone_outflow_with_fallback_checked (zone : String) (transitions_df : Option (List Row))
    (weekday : Option Nat) (weather time_bucket : Option String) :
    Except String (List (String × Rat) × Option Notice) :=
  let res := get_filtered_transitions_with_fallback_frames transitions_df weekday weather time_bucket
  match filterByCol res.1 (fun r => r.from_zone == zone) with
  | Except.error e => Except.error e
  | Except.ok zone_outflow =>
    if zone_outflow.length = 0 then Except.ok ([], res.2)
    else Except.ok (groupedProbs zone_outflow (fun r => r.to_zone), res.2)

/-- Embedding of `get_zone_inflow_with_fallback` with the error path of the
`to_zone` column access modelled. -/
def get_zone_inflow_with_fallback_checked (zone : String) (transitions_df : Option (List Row))
    (weekday : Option Nat) (weather time_bucket : Option String) :
    Except String (List (String × Rat) × Option Notice) :=
  let res := get_filtered_transitions_with_fallback_frames transitions_df weekday weather time_bucket
  match filterByCol res.1 (fun r => r.to_zone == zone) with
  | Except.error e => Except.error e
  | Except.ok zone_inflow =>
    if zone_inflow.length = 0 then Except.ok ([], res.2)
    else Except.ok (groupedProbs zone_inflow (fun r => r.from_zone), res.2)

/-- Python `sorted(items, key=lambda x: -x[1])` is a stable descending sort by
the probability component: insert before the first element whose probability is
not larger. -/
def insRank (x : String × Rat) : List (String × Rat) → List (String × Rat)
  | [] => [x]
  | y :: ys => if y.2 ≤ x.2 then x :: y :: ys else y :: insRank x ys

/-- The ranking the dashboard applies to a distribution before display
(`outflow_sorted = sorted(outflow_probs.items(), key=lambda x: -x[1])`). -/
def rankByProb (l : List (String × Rat)) : List (String × Rat) := l.foldr insRank []

/-- Entry of one zone in the Zone Statistics table (`zone_statistics.json`),
restricted to the fields the traffic aggregation reads
(`stats.get(total_outflow, 0)` and `stats.get(total_inflow, 0)`). -/
structure ZoneStats where
  total_outflow : Int
  total_inflow : Int
deriving DecidableEq

/-- One record of the `zone_traffic` list built in `render_journey_analysis`:
with fields Zone, Outflow, Inflow, Total = outflow + inflow and
Balance = outflow - inflow. -/
structure TrafficEntry where
  zone : String
  outflow : Int
  inflow : Int
  total : Int
  balance : Int
deriving DecidableEq

/-- The `zone_traffic` list of `render_journey_analysis` (main.py): one entry
per zone of the statistics table. -/
def buildZoneTraffic (zone_stats : List (String × ZoneStats)) : List TrafficEntry :=
  zone_stats.map (fun zs =>
    ⟨zs.1, zs.2.total_outflow, zs.2.total_inflow,
     zs.2.total_outflow + zs.2.total_inflow,
     zs.2.total_outflow - zs.2.total_inflow⟩)

/-- Insertion step of a descending sort by the `Total` column. -/
def insTraffic (x : TrafficEntry) : List TrafficEntry → List TrafficEntry
  | [] => [x]
  | y :: ys => if y.total ≤ x.total then x :: y :: ys else y :: insTraffic x ys

/-- Embedding of `pd.DataFrame(zone_traffic).sort_values(Total, descending)`:
the zones ranked by total traffic, descending. -/
def rankByTotal (l : List TrafficEntry) : List TrafficEntry := l.foldr insTraffic []

/-- The list of `(weekday, weather, time_bucket)` triples the resolver passes to
`try_filter`, in order: the exact attempt, the three substitution phases, and
(when a weekday was requested) the weekday-only last resort. -/
def attemptedFilters (rows : List Row) (weekday : Option Nat) (weather time_bucket : Option String) :
    List (Option Nat × Option String × Option String) :=
  (weekday, weather, time_bucket) ::
    ((weatherCands (codeWeatherOrder weather rows) weather time_bucket ++
      timeCands (codeTimeOrder time_bucket rows) weather time_bucket ++
      bothCands (codeWeatherOrder weather rows) (codeTimeOrder time_bucket rows)
        weekday weather time_bucket).map (fun c => (weekday, c.1, c.2.1)) ++
     (match weekday with
      | some d => [(some d, (none : Option String), (none : Option String))]
      | none => []))

/-- First non-empty `try_filter` result along a list of attempted filter
triples (empty if every attempt comes back empty). -/
def scanFilters (rows : List Row) : List (Option Nat × Option String × Option String) → List Row
  | [] => []
  | c :: rest =>
    let result := applyFilters rows c.1 c.2.1 c.2.2
    if 0 < result.length then result else scanFilters rows rest

/-- Combined predicate of the three sequential filters of `try_filter` /
`get_filtered_transitions`. -/
def matchesCtx (wd : Option Nat) (wt tb : Option String) (r : Row) : Bool :=
  (match wd with | none => true | some w => r.weekday == w) &&
  ((match wt with | none => true | some w => r.weather == w) &&
   (match tb with | none => true | some t => r.time_bucket == t))

/-- Invariant of the stable descending insertion: probabilities descend, and
on a probability tie the key of the earlier entry is lexicographically
smaller. -/
def RankedInv (a b : String × Rat) : Prop :=
  b.2 ≤ a.2 ∧ (a.2 = b.2 → strLt a.1 b.1 = true)

/-! ### Order facts for the code-point lexicographic comparison -/

theorem natLexLt_irrefl (l : List Nat) : natLexLt l l = false := by
  induction l with
  | nil => rfl
  | cons a as ih => simp [natLexLt, ih]

theorem charToNat_inj {a b : Char} (h : a.toNat = b.toNat) : a = b := by
  have hv : a.val = b.val := UInt32.ext h
  cases a; cases b; simp_all

theorem strCodes_inj {a b : String} (h : strCodes a = strCodes b) : a = b := by
  have hd : a.data = b.data :=
    List.map_injective_iff.mpr (fun x y hxy => charToNat_inj hxy) h
  cases a; simp_all

theorem natLexLt_cons {x y : Nat} {xs ys : List Nat} :
    natLexLt (x :: xs) (y :: ys) = true ↔ x < y ∨ (x = y ∧ natLexLt xs ys = true) := by
  rcases Nat.lt_trichotomy x y with h | h | h
  · simp [natLexLt, h]
  · subst h
    simp [natLexLt, Nat.lt_irrefl]
  · simp [natLexLt, h, Nat.lt_asymm h, Nat.ne_of_gt h]

theorem natLexLt_trans {a b c : List Nat} (h1 : natLexLt a b = true)
    (h2 : natLexLt b c = true) : natLexLt a c = true := by
  induction a generalizing b c with
  | nil =>
    cases b with
    | nil => exact h2
    | cons y ys =>
      cases c with
      | nil => simp [natLexLt] at h2
      | cons z zs => simp [natLexLt]
  | cons x xs ih =>
    cases b with
    | nil => simp [natLexLt] at h1
    | cons y ys =>
      cases c with
      | nil => simp [natLexLt] at h2
      | cons z zs =>
        rw [natLexLt_cons] at h1 h2 ⊢
        rcases h1 with h1 | ⟨h1e, h1r⟩
        · rcases h2 with h2 | ⟨h2e, h2r⟩
          · exact Or.inl (Nat.lt_trans h1 h2)
          · exact Or.inl (h2e ▸ h1)
        · rcases h2 with h2 | ⟨h2e, h2r⟩
          · exact Or.inl (h1e ▸ h2)
          · exact Or.inr ⟨h1e.trans h2e, ih h1r h2r⟩

theorem natLexLt_total {a b : List Nat} (h1 : natLexLt a b = false) (h2 : a ≠ b) :
    natLexLt b a = true := by
  induction a generalizing b with
  | nil =>
    cases b with
    | nil => exact absurd rfl h2
    | cons y ys => simp [natLexLt] at h1
  | cons x xs ih =>
    cases b with
    | nil => simp [natLexLt]
    | cons y ys =>
      rw [natLexLt_cons]
      rcases Nat.lt_trichotomy x y with h | h | h
      · exfalso
        have hx : natLexLt (x :: xs) (y :: ys) = true :=
          natLexLt_cons.mpr (Or.inl h)
        rw [h1] at hx
        exact Bool.false_ne_true hx
      · subst h
        right
        refine ⟨rfl, ih ?_ ?_⟩
        · by_contra hne
          have hb : natLexLt xs ys = true := by
            cases hxy : natLexLt xs ys with
            | false => exact absurd hxy hne
            | true => rfl
          have hx : natLexLt (x :: xs) (x :: ys) = true :=
            natLexLt_cons.mpr (Or.inr ⟨rfl, hb⟩)
          rw [h1] at hx
          exact Bool.false_ne_true hx
        · intro he
          exact h2 (by rw [he])
      · exact Or.inl h

theorem strLt_irrefl (s : String) : strLt s s = false := natLexLt_irrefl _

theorem strLt_trans {a b c : String} (h1 : strLt a b = true) (h2 : strLt b c = true) :
    strLt a c = true := natLexLt_trans h1 h2

theorem strLt_total {a b : String} (h1 : strLt a b = false) (h2 : a ≠ b) :
    strLt b a = true :=
  natLexLt_total h1 (fun hc => h2 (strCodes_inj hc))

theorem strLt_ne {a b : String} (h : strLt a b = true) : a ≠ b := by
  intro he
  subst he
  rw [strLt_irrefl] at h
  exact Bool.false_ne_true h

/-! ### Properties of the sorted grouping keys -/

theorem mem_insKey {z x : String} {l : List String} :
    z ∈ insKey x l ↔ z = x ∨ z ∈ l := by
  induction l with
  | nil => simp [insKey]
  | cons y ys ih =>
    by_cases h1 : strLt x y
    · simp [insKey, h1]
    · by_cases h2 : x = y
      · subst h2
        simp only [insKey, h1, if_neg, if_pos rfl, Bool.false_eq_true, if_false]
        constructor
        · intro h; exact Or.inr h
        · intro h
          rcases h with h | h
          · subst h; exact List.mem_cons_self _ _
          · exact h
      · simp only [insKey, h1, Bool.false_eq_true, if_false, if_neg h2, List.mem_cons, ih]
        tauto

theorem mem_sortedKeys {z : String} {l : List String} :
    z ∈ sortedKeys l ↔ z ∈ l := by
  induction l with
  | nil => simp [sortedKeys]
  | cons y ys ih =>
    simp only [sortedKeys, List.foldr_cons, mem_insKey, List.mem_cons]
    rw [show List.foldr insKey [] ys = sortedKeys ys from rfl] at *
    rw [ih]

theorem insKey_pairwise {x : String} {l : List String}
    (hl : l.Pairwise (fun a b => strLt a b = true)) :
    (insKey x l).Pairwise (fun a b => strLt a b = true) := by
  induction l with
  | nil => simp [insKey]
  | cons y ys ih =>
    rcases List.pairwise_cons.mp hl with ⟨hy, hys⟩
    by_cases h1 : strLt x y
    · simp only [insKey, h1, if_true]
      refine List.pairwise_cons.mpr ⟨?_, hl⟩
      intro z hz
      rcases List.mem_cons.mp hz with hz | hz
      · subst hz; exact h1
      · exact strLt_trans h1 (hy z hz)
    · by_cases h2 : x = y
      · subst h2
        simp only [insKey, h1, Bool.false_eq_true, if_false, if_pos rfl]
        exact hl
      · simp only [insKey, h1, Bool.false_eq_true, if_false, if_neg h2]
        refine List.pairwise_cons.mpr ⟨?_, ih hys⟩
        intro z hz
        rcases mem_insKey.mp hz with hz | hz
        · subst hz
          exact strLt_total (by simpa using h1) h2
        · exact hy z hz

theorem sortedKeys_pairwise (l : List String) :
    (sortedKeys l).Pairwise (fun a b => strLt a b = true) := by
  induction l with
  | nil => simp [sortedKeys]
  | cons y ys ih => exact insKey_pairwise ih

theorem sortedKeys_nodup (l : List String) : (sortedKeys l).Nodup :=
  (sortedKeys_pairwise l).imp (fun h => strLt_ne h)

/-! ### Stable ranking of distributions and traffic entries -/

theorem mem_insRank {z x : String × Rat} {l : List (String × Rat)} :
    z ∈ insRank x l ↔ z = x ∨ z ∈ l := by
  induction l with
  | nil => simp [insRank]
  | cons y ys ih =>
    by_cases h : y.2 ≤ x.2
    · simp [insRank, h]
    · simp only [insRank, h, if_false, List.mem_cons, ih]
      tauto

theorem insRank_pairwise {x : String × Rat} {l : List (String × Rat)}
    (hl : l.Pairwise RankedInv) (hx : ∀ y ∈ l, strLt x.1 y.1 = true) :
    (insRank x l).Pairwise RankedInv := by
  induction l with
  | nil => simp [insRank, List.pairwise_cons]
  | cons y ys ih =>
    rcases List.pairwise_cons.mp hl with ⟨hy, hys⟩
    by_cases h : y.2 ≤ x.2
    · simp only [insRank, h, if_true]
      refine List.pairwise_cons.mpr ⟨?_, hl⟩
      intro z hz
      rcases List.mem_cons.mp hz with hz | hz
      · rw [hz]
        exact ⟨h, fun _ => hx y (List.mem_cons_self _ _)⟩
      · refine ⟨le_trans (hy z hz).1 h, fun _ => hx z (List.mem_cons.mpr (Or.inr hz))⟩
    · simp only [insRank, h, if_false]
      refine List.pairwise_cons.mpr ⟨?_, ih hys (fun z hz => hx z (List.mem_cons.mpr (Or.inr hz)))⟩
      intro z hz
      rcases mem_insRank.mp hz with hz | hz
      · subst hz
        refine ⟨le_of_not_le h, fun he => absurd (le_of_eq he) h⟩
      · exact hy z hz

theorem mem_rankByProb {z : String × Rat} {l : List (String × Rat)} :
    z ∈ rankByProb l ↔ z ∈ l := by
  induction l with
  | nil => simp [rankByProb]
  | cons y ys ih =>
    simp only [rankByProb, List.foldr_cons] at *
    rw [mem_insRank, ih]
    simp

theorem rankByProb_pairwise {l : List (String × Rat)}
    (hl : l.Pairwise (fun a b => strLt a.1 b.1 = true)) :
    (rankByProb l).Pairwise RankedInv := by
  induction l with
  | nil => simp [rankByProb]
  | cons y ys ih =>
    rcases List.pairwise_cons.mp hl with ⟨hy, hys⟩
    have hmem : ∀ z ∈ rankByProb ys, strLt y.1 z.1 = true := by
      intro z hz
      exact hy z (mem_rankByProb.mp hz)
    exact insRank_pairwise (ih hys) hmem

theorem insTraffic_perm (x : TrafficEntry) (l : List TrafficEntry) :
    List.Perm (insTraffic x l) (x :: l) := by
  induction l with
  | nil => simp [insTraffic]
  | cons y ys ih =>
    by_cases h : y.total ≤ x.total
    · simp [insTraffic, h]
    · simp only [insTraffic, h, if_false]
      exact List.Perm.trans (List.Perm.cons y ih) (List.Perm.swap x y ys)

theorem rankByTotal_perm (l : List TrafficEntry) : List.Perm (rankByTotal l) l := by
  induction l with
  | nil => simp [rankByTotal]
  | cons y ys ih =>
    simp only [rankByTotal, List.foldr_cons] at *
    exact List.Perm.trans (insTraffic_perm _ _) (List.Perm.cons y ih)

theorem mem_insTraffic {z x : TrafficEntry} {l : List TrafficEntry} :
    z ∈ insTraffic x l ↔ z = x ∨ z ∈ l := by
  constructor
  · intro h
    rcases List.mem_cons.mp ((insTraffic_perm x l).mem_iff.mp h) with h | h
    · exact Or.inl h
    · exact Or.inr h
  · intro h
    refine (insTraffic_perm x l).mem_iff.mpr ?_
    rcases h with h | h
    · exact List.mem_cons.mpr (Or.inl h)
    · exact List.mem_cons.mpr (Or.inr h)

theorem insTraffic_pairwise {x : TrafficEntry} {l : List TrafficEntry}
    (hl : l.Pairwise (fun a b => b.total ≤ a.total)) :
    (insTraffic x l).Pairwise (fun a b => b.total ≤ a.total) := by
  induction l with
  | nil => simp [insTraffic]
  | cons y ys ih =>
    rcases List.pairwise_cons.mp hl with ⟨hy, hys⟩
    by_cases h : y.total ≤ x.total
    · simp only [insTraffic, h, if_true]
      refine List.pairwise_cons.mpr ⟨?_, hl⟩
      intro z hz
      rcases List.mem_cons.mp hz with hz | hz
      · rw [hz]; exact h
      · exact le_trans (hy z hz) h
    · simp only [insTraffic, h, if_false]
      refine List.pairwise_cons.mpr ⟨?_, ih hys⟩
      intro z hz
      rcases mem_insTraffic.mp hz with hz | hz
      · rw [hz]; exact le_of_not_le h
      · exact hy z hz

theorem rankByTotal_pairwise (l : List TrafficEntry) :
    (rankByTotal l).Pairwise (fun a b => b.total ≤ a.total) := by
  induction l with
  | nil => simp [rankByTotal]
  | cons y ys ih => exact insTraffic_pairwise ih

/-! ### Count sums and the partition of a subset by its grouping key -/

theorem sumCounts_filter_split (p : Row → Bool) (l : List Row) :
    sumCounts (l.filter p) + sumCounts (l.filter (fun r => !(p r))) = sumCounts l := by
  induction l with
  | nil => rfl
  | cons r rs ih =>
    by_cases h : p r
    · simp [sumCounts, List.filter_cons, h] at *
      omega
    · simp [sumCounts, List.filter_cons, h] at *
      omega

theorem sum_filter_key (key : Row → String) (keys : List String) (l : List Row)
    (hnd : keys.Nodup) (hcov : ∀ r ∈ l, key r ∈ keys) :
    (keys.map (fun k => sumCounts (l.filter (fun r => key r == k)))).sum = sumCounts l := by
  induction keys generalizing l with
  | nil =>
    cases l with
    | nil => rfl
    | cons r rs => exact absurd (hcov r (List.mem_cons_self _ _)) (by simp)
  | cons k ks ih =>
    rcases List.nodup_cons.mp hnd with ⟨hk, hks⟩
    have hrest : ∀ k2 ∈ ks,
        l.filter (fun r => key r == k2) = (l.filter (fun r => !(key r == k))).filter (fun r => key r == k2) := by
      intro k2 hk2
      rw [List.filter_filter]
      apply List.filter_congr
      intro r hr
      by_cases he : key r = k2
      · have hne : k2 ≠ k := fun hc => hk (hc ▸ hk2)
        simp [he, hne]
      · simp [he]
    have hcov2 : ∀ r ∈ l.filter (fun r => !(key r == k)), key r ∈ ks := by
      intro r hr
      rcases List.mem_filter.mp hr with ⟨hrl, hrk⟩
      rcases List.mem_cons.mp (hcov r hrl) with hh | hh
      · exfalso
        simp [hh] at hrk
      · exact hh
    calc (List.map (fun k2 => sumCounts (l.filter (fun r => key r == k2))) (k :: ks)).sum
        = sumCounts (l.filter (fun r => key r == k)) +
            (ks.map (fun k2 => sumCounts (l.filter (fun r => key r == k2)))).sum := by
          simp
      _ = sumCounts (l.filter (fun r => key r == k)) +
            (ks.map (fun k2 => sumCounts ((l.filter (fun r => !(key r == k))).filter (fun r => key r == k2)))).sum := by
          rw [List.map_congr_left]
          intro k2 hk2
          rw [hrest k2 hk2]
      _ = sumCounts (l.filter (fun r => key r == k)) + sumCounts (l.filter (fun r => !(key r == k))) := by
          rw [ih _ hks hcov2]
      _ = sumCounts l := sumCounts_filter_split _ l

theorem groupedProbs_fst (sub : List Row) (key : Row → String) :
    (groupedProbs sub key).map Prod.fst = sortedKeys (sub.map key) := by
  simp [groupedProbs, List.map_map, Function.comp_def]

theorem groupedProbs_pairwise_fst (sub : List Row) (key : Row → String) :
    (groupedProbs sub key).Pairwise (fun a b => strLt a.1 b.1 = true) := by
  exact List.pairwise_map.mpr (sortedKeys_pairwise _)

theorem groupedProbs_val {sub : List Row} {key : Row → String} {p : String × Rat}
    (hp : p ∈ groupedProbs sub key) :
    p.2 = (sumCounts (sub.filter (fun r => key r == p.1)) : Rat) / (sumCounts sub : Rat) := by
  simp only [groupedProbs, List.mem_map] at hp
  rcases hp with ⟨k, _, hk⟩
  rw [← hk]

theorem sum_map_div_cast (keys : List String) (f : String → Nat) (T : Nat) :
    (keys.map (fun k => ((f k : Nat) : Rat) / (T : Rat))).sum
      = (((keys.map f).sum : Nat) : Rat) / (T : Rat) := by
  induction keys with
  | nil => simp
  | cons k ks ih =>
    simp only [List.map_cons, List.sum_cons, ih, div_add_div_same]
    push_cast
    ring

theorem sumCounts_pos {sub : List Row} (hne : sub ≠ [])
    (hpos : ∀ r ∈ sub, 0 < r.count) : 0 < sumCounts sub := by
  cases sub with
  | nil => exact absurd rfl hne
  | cons r rs =>
    have := hpos r (List.mem_cons_self _ _)
    simp only [sumCounts, List.map_cons, List.sum_cons]
    omega

theorem groupedProbs_sum {sub : List Row} {key : Row → String} (hne : sub ≠ [])
    (hpos : ∀ r ∈ sub, 0 < r.count) :
    ((groupedProbs sub key).map Prod.snd).sum = 1 := by
  have hmap : (groupedProbs sub key).map Prod.snd
      = (sortedKeys (sub.map key)).map
          (fun k => ((sumCounts (sub.filter (fun r => key r == k)) : Nat) : Rat) / ((sumCounts sub : Nat) : Rat)) := by
    simp [groupedProbs, List.map_map]
  have hcov : ∀ r ∈ sub, key r ∈ sortedKeys (sub.map key) := by
    intro r hr
    exact mem_sortedKeys.mpr (List.mem_map.mpr ⟨r, hr, rfl⟩)
  have hpart : ((sortedKeys (sub.map key)).map
      (fun k => sumCounts (sub.filter (fun r => key r == k)))).sum = sumCounts sub :=
    sum_filter_key key _ sub (sortedKeys_nodup _) hcov
  rw [hmap, sum_map_div_cast, hpart]
  have hT : (0 : Rat) < (sumCounts sub : Rat) := by
    exact_mod_cast sumCounts_pos hne hpos
  exact div_self (ne_of_gt hT)

/-! ### Membership characterisation of the context filter -/

theorem mem_applyFilters {rows : List Row} {wd : Option Nat} {wt tb : Option String} {r : Row} :
    r ∈ applyFilters rows wd wt tb ↔ r ∈ rows ∧ matchesCtx wd wt tb r = true := by
  cases wd <;> cases wt <;> cases tb <;>
    (simp [applyFilters, matchesCtx, List.mem_filter, and_assoc]) <;>
    (intro _; tauto)

theorem applyFilters_eq_nil {rows : List Row} {wd : Option Nat} {wt tb : Option String} :
    applyFilters rows wd wt tb = [] ↔ ∀ r ∈ rows, matchesCtx wd wt tb r = false := by
  rw [List.eq_nil_iff_forall_not_mem]
  constructor
  · intro h r hr
    cases hm : matchesCtx wd wt tb r with
    | false => rfl
    | true => exact absurd (mem_applyFilters.mpr ⟨hr, hm⟩) (h r)
  · intro h r hm
    rcases mem_applyFilters.mp hm with ⟨hr, hmt⟩
    rw [h r hr] at hmt
    exact Bool.false_ne_true hmt

theorem applyFilters_subset {rows : List Row} {wd : Option Nat} {wt tb : Option String} {r : Row}
    (h : r ∈ applyFilters rows wd wt tb) : r ∈ rows :=
  (mem_applyFilters.mp h).1

theorem matchesCtx_weather_mono {wd : Option Nat} {w : String} {tb : Option String} {r : Row}
    (h : matchesCtx wd (some w) tb r = true) : matchesCtx wd none tb r = true := by
  simp only [matchesCtx, Bool.and_eq_true] at h ⊢
  exact ⟨h.1, trivial, h.2.2⟩

theorem matchesCtx_time_mono {wd : Option Nat} {wt : Option String} {t : String} {r : Row}
    (h : matchesCtx wd wt (some t) r = true) : matchesCtx wd wt none r = true := by
  simp only [matchesCtx, Bool.and_eq_true] at h ⊢
  exact ⟨h.1, h.2.1, trivial⟩

theorem applyFilters_weather_nil {rows : List Row} {wd : Option Nat} {w : String} {tb : Option String}
    (h : applyFilters rows wd none tb = []) : applyFilters rows wd (some w) tb = [] := by
  rw [applyFilters_eq_nil] at h ⊢
  intro r hr
  cases hm : matchesCtx wd (some w) tb r with
  | false => rfl
  | true =>
    have hmono := matchesCtx_weather_mono hm
    rw [h r hr] at hmono
    exact absurd hmono Bool.false_ne_true

theorem applyFilters_time_nil {rows : List Row} {wd : Option Nat} {wt : Option String} {t : String}
    (h : applyFilters rows wd wt none = []) : applyFilters rows wd wt (some t) = [] := by
  rw [applyFilters_eq_nil] at h ⊢
  intro r hr
  cases hm : matchesCtx wd wt (some t) r with
  | false => rfl
  | true =>
    have hmono := matchesCtx_time_mono hm
    rw [h r hr] at hmono
    exact absurd hmono Bool.false_ne_true

theorem applyFilters_both_nil {rows : List Row} {wd : Option Nat} {w t : String}
    (h : applyFilters rows wd none none = []) : applyFilters rows wd (some w) (some t) = [] :=
  applyFilters_time_nil (applyFilters_weather_nil h)

theorem applyFilters_no_weather {rows : List Row} {wd : Option Nat} {w : String} {tb : Option String}
    (h : w ∉ availableWeathers rows) : applyFilters rows wd (some w) tb = [] := by
  rw [applyFilters_eq_nil]
  intro r hr
  cases hm : matchesCtx wd (some w) tb r with
  | false => rfl
  | true =>
    exfalso
    simp only [matchesCtx, Bool.and_eq_true, beq_iff_eq] at hm
    exact h (List.mem_dedup.mpr (List.mem_map.mpr ⟨r, hr, hm.2.1⟩))

theorem applyFilters_no_time {rows : List Row} {wd : Option Nat} {wt : Option String} {t : String}
    (h : t ∉ availableTimes rows) : applyFilters rows wd wt (some t) = [] := by
  rw [applyFilters_eq_nil]
  intro r hr
  cases hm : matchesCtx wd wt (some t) r with
  | false => rfl
  | true =>
    exfalso
    simp only [matchesCtx, Bool.and_eq_true, beq_iff_eq] at hm
    exact h (List.mem_dedup.mpr (List.mem_map.mpr ⟨r, hr, hm.2.2⟩))

/-! ### Scanning the candidate lists -/

theorem tryCandidates_append (rows : List Row) (wd : Option Nat)
    (l1 l2 : List (Option String × Option String × Notice)) :
    tryCandidates rows wd (l1 ++ l2)
      = match tryCandidates rows wd l1 with
        | some rn => some rn
        | none => tryCandidates rows wd l2 := by
  induction l1 with
  | nil => simp [tryCandidates]
  | cons c l1 ih =>
    simp only [List.cons_append, tryCandidates]
    by_cases h : 0 < (applyFilters rows wd c.1 c.2.1).length
    · simp [h]
    · simp [h, ih]

theorem tryCandidates_none {rows : List Row} {wd : Option Nat}
    {l : List (Option String × Option String × Notice)}
    (h : ∀ c ∈ l, applyFilters rows wd c.1 c.2.1 = []) :
    tryCandidates rows wd l = none := by
  induction l with
  | nil => rfl
  | cons c l ih =>
    simp only [tryCandidates, h c (List.mem_cons_self _ _), List.length_nil, Nat.lt_irrefl,
      if_false]
    exact ih (fun c2 hc2 => h c2 (List.mem_cons.mpr (Or.inr hc2)))

theorem tryCandidates_some_ne {rows : List Row} {wd : Option Nat}
    {l : List (Option String × Option String × Notice)} {rn : List Row × Notice}
    (h : tryCandidates rows wd l = some rn) : rn.1 ≠ [] := by
  induction l with
  | nil => exact absurd h (by simp [tryCandidates])
  | cons c l ih =>
    simp only [tryCandidates] at h
    by_cases hc : 0 < (applyFilters rows wd c.1 c.2.1).length
    · rw [if_pos hc] at h
      have : rn.1 = applyFilters rows wd c.1 c.2.1 := by
        cases h
        rfl
      rw [this]
      intro hnil
      rw [hnil] at hc
      simp at hc
    · rw [if_neg hc] at h
      exact ih h

theorem tryCandidates_subset {rows : List Row} {wd : Option Nat}
    {l : List (Option String × Option String × Notice)} {rn : List Row × Notice}
    (h : tryCandidates rows wd l = some rn) : ∀ r ∈ rn.1, r ∈ rows := by
  induction l with
  | nil => exact absurd h (by simp [tryCandidates])
  | cons c l ih =>
    simp only [tryCandidates] at h
    by_cases hc : 0 < (applyFilters rows wd c.1 c.2.1).length
    · rw [if_pos hc] at h
      have : rn.1 = applyFilters rows wd c.1 c.2.1 := by
        cases h
        rfl
      rw [this]
      intro r hr
      exact applyFilters_subset hr
    · rw [if_neg hc] at h
      exact ih h

/-! ### Resolver-level facts (generic in the candidate orders) -/

theorem resolveWith_exact (mkW mkT : Option String → List Row → List String)
    {rows : List Row} {wd : Option Nat} {wt tb : Option String}
    (h0 : rows ≠ []) (hex : applyFilters rows wd wt tb ≠ []) :
    resolveWith mkW mkT (some rows) wd wt tb = (applyFilters rows wd wt tb, none) := by
  have h1 : ¬ rows.length = 0 := by simpa [List.length_eq_zero] using h0
  have h2 : 0 < (applyFilters rows wd wt tb).length := List.length_pos.mpr hex
  simp [resolveWith, h1, h2]

theorem resolveWith_subset (mkW mkT : Option String → List Row → List String)
    {rows : List Row} {wd : Option Nat} {wt tb : Option String} :
    ∀ r ∈ (resolveWith mkW mkT (some rows) wd wt tb).1, r ∈ rows := by
  intro r hr
  by_cases h1 : rows.length = 0
  · simp [resolveWith, h1] at hr
  · by_cases h2 : 0 < (applyFilters rows wd wt tb).length
    · simp only [resolveWith, h1, if_false, h2, if_true] at hr
      exact applyFilters_subset hr
    · rcases htc : tryCandidates rows wd
          (weatherCands (mkW wt rows) wt tb ++ timeCands (mkT tb rows) wt tb ++
           bothCands (mkW wt rows) (mkT tb rows) wd wt tb) with _ | rn
      · simp only [resolveWith, h1, if_false, h2, htc] at hr
        cases wd with
        | none => simp at hr
        | some d =>
          simp only at hr
          by_cases h3 : 0 < (applyFilters rows (some d) none none).length
          · rw [if_pos h3] at hr
            exact applyFilters_subset (by simpa using hr)
          · rw [if_neg h3] at hr
            simp at hr
      · simp only [resolveWith, h1, if_false, h2, htc] at hr
        exact tryCandidates_subset htc r (by simpa using hr)

theorem resolveWith_empty_noData (mkW mkT : Option String → List Row → List String)
    {rows : List Row} {wd : Option Nat} {wt tb : Option String} (h0 : rows ≠ [])
    (hres : (resolveWith mkW mkT (some rows) wd wt tb).1 = []) :
    resolveWith mkW mkT (some rows) wd wt tb = ([], some Notice.noData) := by
  have h1 : ¬ rows.length = 0 := by simpa [List.length_eq_zero] using h0
  by_cases h2 : 0 < (applyFilters rows wd wt tb).length
  · exfalso
    simp only [resolveWith, h1, if_false, h2, if_true] at hres
    rw [hres] at h2
    simp at h2
  · rcases htc : tryCandidates rows wd
        (weatherCands (mkW wt rows) wt tb ++ timeCands (mkT tb rows) wt tb ++
         bothCands (mkW wt rows) (mkT tb rows) wd wt tb) with _ | rn
    · cases wd with
      | none => simp only [resolveWith, h1, if_false, h2, htc]
      | some d =>
        by_cases h3 : 0 < (applyFilters rows (some d) none none).length
        · exfalso
          simp only [resolveWith, h1, if_false, h2, htc, h3, if_true] at hres
          rw [show applyFilters rows (some d) none none = [] from by simpa using hres] at h3
          simp at h3
        · simp only [resolveWith, h1, if_false, h2, htc, h3, if_false]
    · exfalso
      simp only [resolveWith, h1, if_false, h2, htc] at hres
      exact tryCandidates_some_ne htc (by simpa using hres)

/-! ### The candidate orders of the spec agree observationally with those of the code -/

theorem tryCandidates_weatherCands_none {rows : List Row} {wd : Option Nat} {tb : Option String}
    {L : List String} (hex : applyFilters rows wd none tb = []) :
    tryCandidates rows wd (weatherCands L none tb) = none := by
  apply tryCandidates_none
  intro c hc
  simp only [weatherCands, List.mem_map] at hc
  rcases hc with ⟨w, _, rfl⟩
  exact applyFilters_weather_nil hex

theorem tryCandidates_timeCands_none {rows : List Row} {wd : Option Nat} {wt tb : Option String}
    {L : List String} (hex : applyFilters rows wd wt none = []) :
    tryCandidates rows wd (timeCands L wt tb) = none := by
  apply tryCandidates_none
  intro c hc
  simp only [timeCands, List.mem_map] at hc
  rcases hc with ⟨t, _, rfl⟩
  exact applyFilters_time_nil hex

theorem tryCandidates_bothCands_none {rows : List Row} {wd wd2 : Option Nat}
    {wt tb : Option String} {W T : List String} (hex : applyFilters rows wd none none = []) :
    tryCandidates rows wd (bothCands W T wd2 wt tb) = none := by
  apply tryCandidates_none
  intro c hc
  simp only [bothCands, List.mem_flatMap, List.mem_map] at hc
  rcases hc with ⟨w, _, t, _, rfl⟩
  exact applyFilters_both_nil hex

theorem contains_eq_false_not_mem {l : List String} {x : String}
    (h : l.contains x = false) : x ∉ l := by
  simpa using h

theorem tryCandidates_timeBlock_filter {rows : List Row} {wd : Option Nat} {w : String}
    {T : List String} {q : String → Bool} {n : String → Option String × Option String × Notice}
    (hshape : ∀ t, n t = (some w, some t, (n t).2.2))
    (hq : ∀ t ∈ T, q t = false → t ∉ availableTimes rows) :
    tryCandidates rows wd ((T.filter q).map n) = tryCandidates rows wd (T.map n) := by
  induction T with
  | nil => rfl
  | cons t T ih =>
    have ih2 := ih (fun t2 ht2 hq2 => hq t2 (List.mem_cons.mpr (Or.inr ht2)) hq2)
    by_cases hqt : q t
    · simp only [List.filter_cons, hqt, if_true, List.map_cons, tryCandidates]
      rw [ih2]
    · have hnil : applyFilters rows wd (n t).1 (n t).2.1 = [] := by
        rw [hshape t]
        exact applyFilters_no_time (hq t (List.mem_cons_self _ _) (by simpa using hqt))
      simp only [List.filter_cons, hqt, Bool.false_eq_true, if_false, List.map_cons,
        tryCandidates, hnil, List.length_nil, Nat.lt_irrefl, if_false]
      exact ih2

theorem tryCandidates_bothCands_filterW {rows : List Row} {wd wd2 : Option Nat}
    {wt tb : Option String} {W T : List String} {p : String → Bool}
    (hp : ∀ w ∈ W, p w = false → w ∉ availableWeathers rows) :
    tryCandidates rows wd (bothCands (W.filter p) T wd2 wt tb)
      = tryCandidates rows wd (bothCands W T wd2 wt tb) := by
  induction W with
  | nil => rfl
  | cons w W ih =>
    have ih2 := ih (fun w2 hw2 hp2 => hp w2 (List.mem_cons.mpr (Or.inr hw2)) hp2)
    by_cases hpw : p w
    · simp only [List.filter_cons, hpw, if_true, bothCands, List.flatMap_cons,
        tryCandidates_append]
      simp only [bothCands] at ih2
      rw [ih2]
    · have hblock : tryCandidates rows wd
          (T.map fun t => (some w, some t, Notice.bothSub wd2 wt tb w t)) = none := by
        apply tryCandidates_none
        intro c hc
        simp only [List.mem_map] at hc
        rcases hc with ⟨t, _, rfl⟩
        exact applyFilters_no_weather (hp w (List.mem_cons_self _ _) (by simpa using hpw))
      simp only [List.filter_cons, hpw, Bool.false_eq_true, if_false, bothCands,
        List.flatMap_cons, tryCandidates_append, hblock]
      exact ih2

theorem tryCandidates_bothCands_filterT {rows : List Row} {wd wd2 : Option Nat}
    {wt tb : Option String} {W T : List String} {q : String → Bool}
    (hq : ∀ t ∈ T, q t = false → t ∉ availableTimes rows) :
    tryCandidates rows wd (bothCands W (T.filter q) wd2 wt tb)
      = tryCandidates rows wd (bothCands W T wd2 wt tb) := by
  induction W with
  | nil => rfl
  | cons w W ih =>
    have hinner : tryCandidates rows wd
        ((T.filter q).map fun t => (some w, some t, Notice.bothSub wd2 wt tb w t))
        = tryCandidates rows wd (T.map fun t => (some w, some t, Notice.bothSub wd2 wt tb w t)) :=
      tryCandidates_timeBlock_filter (fun t => rfl) hq
    simp only [bothCands, List.flatMap_cons, tryCandidates_append]
    simp only [bothCands] at ih
    rw [hinner, ih]

theorem specWeatherOrder_some (w : String) (rows : List Row) :
    specWeatherOrder (some w) rows = codeWeatherOrder (some w) rows := by
  simp only [specWeatherOrder, codeWeatherOrder]
  apply List.filter_congr
  intro x _
  by_cases h : x = w
  · simp [h]
  · simp [bne, h]

theorem specTimeOrder_some (t : String) (rows : List Row) :
    specTimeOrder (some t) rows = codeTimeOrder (some t) rows := by
  simp only [specTimeOrder, codeTimeOrder]
  apply List.filter_congr
  intro x _
  by_cases h : x = t
  · simp [h]
  · simp [bne, h]

theorem specWeatherOrder_none (rows : List Row) :
    specWeatherOrder none rows
      = (codeWeatherOrder none rows).filter (fun x => (availableWeathers rows).contains x) := by
  simp only [specWeatherOrder, codeWeatherOrder]
  apply List.filter_congr
  intro x _
  simp

theorem specTimeOrder_none (rows : List Row) :
    specTimeOrder none rows
      = (codeTimeOrder none rows).filter (fun x => (availableTimes rows).contains x) := by
  simp only [specTimeOrder, codeTimeOrder]
  apply List.filter_congr
  intro x _
  simp

theorem tryAll_spec_eq_code {rows : List Row} {wd : Option Nat} {wt tb : Option String}
    (hex : applyFilters rows wd wt tb = []) :
    tryCandidates rows wd
        (weatherCands (specWeatherOrder wt rows) wt tb ++
         timeCands (specTimeOrder tb rows) wt tb ++
         bothCands (specWeatherOrder wt rows) (specTimeOrder tb rows) wd wt tb)
      = tryCandidates rows wd
        (weatherCands (codeWeatherOrder wt rows) wt tb ++
         timeCands (codeTimeOrder tb rows) wt tb ++
         bothCands (codeWeatherOrder wt rows) (codeTimeOrder tb rows) wd wt tb) := by
  have hA : tryCandidates rows wd (weatherCands (specWeatherOrder wt rows) wt tb)
      = tryCandidates rows wd (weatherCands (codeWeatherOrder wt rows) wt tb) := by
    cases wt with
    | none =>
      rw [tryCandidates_weatherCands_none hex, tryCandidates_weatherCands_none hex]
    | some w => rw [specWeatherOrder_some]
  have hB : tryCandidates rows wd (timeCands (specTimeOrder tb rows) wt tb)
      = tryCandidates rows wd (timeCands (codeTimeOrder tb rows) wt tb) := by
    cases tb with
    | none =>
      rw [tryCandidates_timeCands_none hex, tryCandidates_timeCands_none hex]
    | some t => rw [specTimeOrder_some]
  have hC : tryCandidates rows wd (bothCands (specWeatherOrder wt rows) (specTimeOrder tb rows) wd wt tb)
      = tryCandidates rows wd (bothCands (codeWeatherOrder wt rows) (codeTimeOrder tb rows) wd wt tb) := by
    cases wt with
    | none =>
      cases tb with
      | none =>
        rw [tryCandidates_bothCands_none hex, tryCandidates_bothCands_none hex]
      | some t =>
        rw [specWeatherOrder_none, specTimeOrder_some]
        apply tryCandidates_bothCands_filterW
        intro w _ hw
        exact contains_eq_false_not_mem hw
    | some w =>
      cases tb with
      | none =>
        rw [specWeatherOrder_some, specTimeOrder_none]
        apply tryCandidates_bothCands_filterT
        intro t _ ht
        exact contains_eq_false_not_mem ht
      | some t =>
        rw [specWeatherOrder_some, specTimeOrder_some]
  rw [tryCandidates_append, tryCandidates_append, hA, hB, hC,
    ← tryCandidates_append, ← tryCandidates_append]

/-! ### Relating the resolver to its ordered list of attempted filters -/

theorem scanFilters_append (rows : List Row)
    (l1 l2 : List (Option Nat × Option String × Option String)) :
    scanFilters rows (l1 ++ l2)
      = if scanFilters rows l1 = [] then scanFilters rows l2 else scanFilters rows l1 := by
  induction l1 with
  | nil => simp [scanFilters]
  | cons c l1 ih =>
    simp only [List.cons_append, scanFilters]
    by_cases h : 0 < (applyFilters rows c.1 c.2.1 c.2.2).length
    · have hne : applyFilters rows c.1 c.2.1 c.2.2 ≠ [] := by
        intro hc
        rw [hc] at h
        simp at h
      simp [h, hne]
    · simp [h, ih]

theorem scan_eq_try (rows : List Row) (wd : Option Nat)
    (cands : List (Option String × Option String × Notice)) :
    scanFilters rows (cands.map (fun c => (wd, c.1, c.2.1)))
      = match tryCandidates rows wd cands with
        | some rn => rn.1
        | none => [] := by
  induction cands with
  | nil => rfl
  | cons c cands ih =>
    simp only [List.map_cons, scanFilters, tryCandidates]
    by_cases h : 0 < (applyFilters rows wd c.1 c.2.1).length
    · simp [h]
    · simp [h, ih]

/-! ### Unfolding the flow calculators -/

theorem zone_outflow_dist {zone : String} {transitions_df : Option (List Row)}
    {wd : Option Nat} {wt tb : Option String}
    (h : (get_filtered_transitions_with_fallback transitions_df wd wt tb).1.filter
        (fun r => r.from_zone == zone) ≠ []) :
    (get_zone_outflow_with_fallback zone transitions_df wd wt tb).1
      = groupedProbs ((get_filtered_transitions_with_fallback transitions_df wd wt tb).1.filter
          (fun r => r.from_zone == zone)) (fun r => r.to_zone) := by
  have h2 : ¬ ((get_filtered_transitions_with_fallback transitions_df wd wt tb).1.filter
      (fun r => r.from_zone == zone)).length = 0 := by
    simpa [List.length_eq_zero] using h
  simp [get_zone_outflow_with_fallback, h2]

theorem zone_inflow_dist {zone : String} {transitions_df : Option (List Row)}
    {wd : Option Nat} {wt tb : Option String}
    (h : (get_filtered_transitions_with_fallback transitions_df wd wt tb).1.filter
        (fun r => r.to_zone == zone) ≠ []) :
    (get_zone_inflow_with_fallback zone transitions_df wd wt tb).1
      = groupedProbs ((get_filtered_transitions_with_fallback transitions_df wd wt tb).1.filter
          (fun r => r.to_zone == zone)) (fun r => r.from_zone) := by
  have h2 : ¬ ((get_filtered_transitions_with_fallback transitions_df wd wt tb).1.filter
      (fun r => r.to_zone == zone)).length = 0 := by
    simpa [List.length_eq_zero] using h
  simp [get_zone_inflow_with_fallback, h2]

theorem zone_outflow_sub_ne {zone : String} {transitions_df : Option (List Row)}
    {wd : Option Nat} {wt tb : Option String}
    (h : (get_zone_outflow_with_fallback zone transitions_df wd wt tb).1 ≠ []) :
    (get_filtered_transitions_with_fallback transitions_df wd wt tb).1.filter
        (fun r => r.from_zone == zone) ≠ [] := by
  intro hc
  exact h (by simp [get_zone_outflow_with_fallback, hc])

theorem zone_inflow_sub_ne {zone : String} {transitions_df : Option (List Row)}
    {wd : Option Nat} {wt tb : Option String}
    (h : (get_zone_inflow_with_fallback zone transitions_df wd wt tb).1 ≠ []) :
    (get_filtered_transitions_with_fallback transitions_df wd wt tb).1.filter
        (fun r => r.to_zone == zone) ≠ [] := by
  intro hc
  exact h (by simp [get_zone_inflow_with_fallback, hc])

theorem zone_outflow_pairwise_fst (zone : String) (transitions_df : Option (List Row))
    (wd : Option Nat) (wt tb : Option String) :
    ((get_zone_outflow_with_fallback zone transitions_df wd wt tb).1).Pairwise
      (fun a b => strLt a.1 b.1 = true) := by
  by_cases h : (get_filtered_transitions_with_fallback transitions_df wd wt tb).1.filter
      (fun r => r.from_zone == zone) = []
  · simp [get_zone_outflow_with_fallback, h]
  · rw [zone_outflow_dist h]
    exact groupedProbs_pairwise_fst _ _

theorem zone_inflow_pairwise_fst (zone : String) (transitions_df : Option (List Row))
    (wd : Option Nat) (wt tb : Option String) :
    ((get_zone_inflow_with_fallback zone transitions_df wd wt tb).1).Pairwise
      (fun a b => strLt a.1 b.1 = true) := by
  by_cases h : (get_filtered_transitions_with_fallback transitions_df wd wt tb).1.filter
      (fun r => r.to_zone == zone) = []
  · simp [get_zone_inflow_with_fallback, h]
  · rw [zone_inflow_dist h]
    exact groupedProbs_pairwise_fst _ _

/-- The frame-tracking resolver agrees with the list-valued resolver: the
column-less frame arises exactly when the list-valued resolver returns no rows,
and the notices coincide. -/
theorem frames_resolver_eq (transitions_df : Option (List Row)) (wd : Option Nat)
    (wt tb : Option String) :
    get_filtered_transitions_with_fallback_frames transitions_df wd wt tb
      = ((if (get_filtered_transitions_with_fallback transitions_df wd wt tb).1 = []
          then Frame.columnless
          else Frame.table (get_filtered_transitions_with_fallback transitions_df wd wt tb).1),
         (get_filtered_transitions_with_fallback transitions_df wd wt tb).2) := by
  cases transitions_df with
  | none => rfl
  | some rows =>
    by_cases h1 : rows.length = 0
    · simp [get_filtered_transitions_with_fallback_frames,
        get_filtered_transitions_with_fallback, resolveWith, h1]
    · by_cases h2 : 0 < (applyFilters rows wd wt tb).length
      · have hne : applyFilters rows wd wt tb ≠ [] := by
          intro hc
          rw [hc] at h2
          simp at h2
        simp [get_filtered_transitions_with_fallback_frames,
          get_filtered_transitions_with_fallback, resolveWith, h1, h2, hne]
      · rcases htc : tryCandidates rows wd
            (weatherCands (codeWeatherOrder wt rows) wt tb ++
             timeCands (codeTimeOrder tb rows) wt tb ++
             bothCands (codeWeatherOrder wt rows) (codeTimeOrder tb rows) wd wt tb)
            with _ | rn
        · cases wd with
          | none =>
            simp only [get_filtered_transitions_with_fallback_frames,
              get_filtered_transitions_with_fallback, resolveWith, h1, if_false, h2, htc]
            simp
          | some d =>
            by_cases h3 : 0 < (applyFilters rows (some d) none none).length
            · have hne3 : applyFilters rows (some d) none none ≠ [] := by
                intro hc
                rw [hc] at h3
                simp at h3
              simp only [get_filtered_transitions_with_fallback_frames,
                get_filtered_transitions_with_fallback, resolveWith, h1, if_false, h2, htc,
                h3, if_true]
              simp [hne3]
            · simp only [get_filtered_transitions_with_fallback_frames,
                get_filtered_transitions_with_fallback, resolveWith, h1, if_false, h2, htc,
                h3, if_false]
              simp
        · have hrn : rn.1 ≠ [] := tryCandidates_some_ne htc
          simp only [get_filtered_transitions_with_fallback_frames,
            get_filtered_transitions_with_fallback, resolveWith, h1, if_false, h2, htc]
          simp [hrn]

/-! ## The claims -/

/-- C1 (code bug): the claim — and the propagation policy of spec §7 — require
the flow calculators to return an empty distribution together with the notice
of the resolver unchanged, and never to raise, when the table is absent or
empty or when the resolved subset has no rows for the zone.  On exactly the
paths where the resolver returns no rows it hands back the column-less
`pd.DataFrame()` (journey_cache_loader.py lines 193 and 264), and the
unconditional `from_zone` / `to_zone` column access (lines 284 and 313) then
raises `KeyError`.  This theorem evaluates the fallible embedding: the
calculators produce the `KeyError` outcome precisely when the list-valued
resolver is empty (absent table, empty table, or every fallback step empty),
and produce exactly the pair the claim demands whenever the resolver returns
any rows. -/
theorem C1_keyerror_on_empty_resolver :
    ∀ (zone : String) (wd : Option Nat) (wt tb : Option String),
      get_zone_outflow_with_fallback_checked zone none wd wt tb
        = Except.error "KeyError" ∧
      get_zone_outflow_with_fallback_checked zone (some []) wd wt tb
        = Except.error "KeyError" ∧
      get_zone_inflow_with_fallback_checked zone none wd wt tb
        = Except.error "KeyError" ∧
      get_zone_inflow_with_fallback_checked zone (some []) wd wt tb
        = Except.error "KeyError" ∧
      (∀ transitions_df : Option (List Row),
        (get_filtered_transitions_with_fallback transitions_df wd wt tb).1 = [] →
        get_zone_outflow_with_fallback_checked zone transitions_df wd wt tb
          = Except.error "KeyError" ∧
        get_zone_inflow_with_fallback_checked zone transitions_df wd wt tb
          = Except.error "KeyError") ∧
      (∀ transitions_df : Option (List Row),
        (get_filtered_transitions_with_fallback transitions_df wd wt tb).1 ≠ [] →
        get_zone_outflow_with_fallback_checked zone transitions_df wd wt tb
          = Except.ok (get_zone_outflow_with_fallback zone transitions_df wd wt tb) ∧
        get_zone_inflow_with_fallback_checked zone transitions_df wd wt tb
          = Except.ok (get_zone_inflow_with_fallback zone transitions_df wd wt tb)) := by
  intro zone wd wt tb
  refine ⟨rfl, rfl, rfl, rfl, ?_, ?_⟩
  · intro transitions_df h
    constructor
    · simp [get_zone_outflow_with_fallback_checked, frames_resolver_eq, h, filterByCol]
    · simp [get_zone_inflow_with_fallback_checked, frames_resolver_eq, h, filterByCol]
  · intro transitions_df h
    constructor
    · simp only [get_zone_outflow_with_fallback_checked, frames_resolver_eq, if_neg h,
        filterByCol, get_zone_outflow_with_fallback]
      by_cases h2 : ((get_filtered_transitions_with_fallback transitions_df wd wt tb).1.filter
          (fun r => r.from_zone == zone)).length = 0
      · simp [h2]
      · simp [h2]
    · simp only [get_zone_inflow_with_fallback_checked, frames_resolver_eq, if_neg h,
        filterByCol, get_zone_inflow_with_fallback]
      by_cases h2 : ((get_filtered_transitions_with_fallback transitions_df wd wt tb).1.filter
          (fun r => r.to_zone == zone)).length = 0
      · simp [h2]
      · simp [h2]

/-- Witness for C1 at a concrete input: a weekday-0 table queried for weekday 1
exhausts every fallback, the resolver returns the column-less frame, and the
checked outflow calculator raises `KeyError` where the claim demanded an empty
distribution. -/
theorem C1_keyerror_witness :
    get_zone_outflow_with_fallback_checked "A"
        (some [⟨"A", "B", 0, "Clear", "morning", 7, 0, 0⟩]) (some 1) none none
      = Except.error "KeyError" :=
  ((C1_keyerror_on_empty_resolver "A" (some 1) none none).2.2.2.2.1
    (some [⟨"A", "B", 0, "Clear", "morning", 7, 0, 0⟩]) (by decide)).1

/-- C2: the resolver follows the strict fallback precedence the spec
describes — weather substitution first (order Cloudy, Clear, Rainy, excluding
the requested value, restricted to values present in the table), then
time-bucket substitution (afternoon, morning, evening, same rule), then the
cross product with weather as the outer loop, weekday held fixed, first
non-empty result returned with a notice naming the substitution.  Stated as:
the resolver of the code coincides with `resolveSpec`, the resolver written
from the words of the spec. -/
theorem C2_fallback_precedence :
    ∀ (transitions_df : Option (List Row)) (weekday : Option Nat)
      (weather time_bucket : Option String),
      get_filtered_transitions_with_fallback transitions_df weekday weather time_bucket
        = resolveSpec transitions_df weekday weather time_bucket := by
  intro df wd wt tb
  cases df with
  | none => rfl
  | some rows =>
    show resolveWith codeWeatherOrder codeTimeOrder (some rows) wd wt tb
        = resolveWith specWeatherOrder specTimeOrder (some rows) wd wt tb
    by_cases h1 : rows.length = 0
    · simp [resolveWith, h1]
    · have hne : rows ≠ [] := by simpa [← List.length_eq_zero] using h1
      by_cases h2 : 0 < (applyFilters rows wd wt tb).length
      · have hexne : applyFilters rows wd wt tb ≠ [] := by
          intro hc
          rw [hc] at h2
          simp at h2
        rw [resolveWith_exact codeWeatherOrder codeTimeOrder hne hexne,
          resolveWith_exact specWeatherOrder specTimeOrder hne hexne]
      · have hex : applyFilters rows wd wt tb = [] := by
          rw [← List.length_eq_zero]
          omega
        simp only [resolveWith, h1, if_false, h2]
        rw [tryAll_spec_eq_code hex]

/-- C3: for every zone and resolved non-empty subset, the outflow distribution
maps each destination observed in rows leaving the zone (and only those, each
once) to the sum of `count` over the rows reaching it divided by the total
`count` of the subset; symmetrically for inflow grouped by `from_zone`.  In
particular outflow rows Entrance:80 / Exit:20 yield exactly
Entrance ↦ 0.8 (= 4/5) and Exit ↦ 0.2 (= 1/5). -/
theorem C3_distribution_values :
    ∀ (zone : String) (transitions_df : Option (List Row)) (wd : Option Nat)
      (wt tb : Option String),
      ((get_filtered_transitions_with_fallback transitions_df wd wt tb).1.filter
          (fun r => r.from_zone == zone) ≠ [] →
        (∀ k : String,
          k ∈ (get_zone_outflow_with_fallback zone transitions_df wd wt tb).1.map Prod.fst ↔
          ∃ r ∈ (get_filtered_transitions_with_fallback transitions_df wd wt tb).1.filter
              (fun r => r.from_zone == zone), r.to_zone = k) ∧
        ((get_zone_outflow_with_fallback zone transitions_df wd wt tb).1.map Prod.fst).Nodup ∧
        (∀ p ∈ (get_zone_outflow_with_fallback zone transitions_df wd wt tb).1,
          p.2 = (sumCounts (((get_filtered_transitions_with_fallback transitions_df wd wt tb).1.filter
                  (fun r => r.from_zone == zone)).filter (fun r => r.to_zone == p.1)) : Rat)
              / (sumCounts ((get_filtered_transitions_with_fallback transitions_df wd wt tb).1.filter
                  (fun r => r.from_zone == zone)) : Rat))) ∧
      ((get_filtered_transitions_with_fallback transitions_df wd wt tb).1.filter
          (fun r => r.to_zone == zone) ≠ [] →
        (∀ k : String,
          k ∈ (get_zone_inflow_with_fallback zone transitions_df wd wt tb).1.map Prod.fst ↔
          ∃ r ∈ (get_filtered_transitions_with_fallback transitions_df wd wt tb).1.filter
              (fun r => r.to_zone == zone), r.from_zone = k) ∧
        (∀ p ∈ (get_zone_inflow_with_fallback zone transitions_df wd wt tb).1,
          p.2 = (sumCounts (((get_filtered_transitions_with_fallback transitions_df wd wt tb).1.filter
                  (fun r => r.to_zone == zone)).filter (fun r => r.from_zone == p.1)) : Rat)
              / (sumCounts ((get_filtered_transitions_with_fallback transitions_df wd wt tb).1.filter
                  (fun r => r.to_zone == zone)) : Rat))) ∧
      get_zone_outflow_with_fallback "Self Checkout"
          (some [⟨"Self Checkout", "Entrance", 5, "Rainy", "evening", 80, 0, 0⟩,
                 ⟨"Self Checkout", "Exit", 5, "Rainy", "evening", 20, 0, 0⟩])
          (some 5) (some "Rainy") (some "evening")
        = ([("Entrance", 4 / 5), ("Exit", 1 / 5)], none) := by
  intro zone transitions_df wd wt tb
  refine ⟨?_, ?_, ?_⟩
  · intro h
    rw [zone_outflow_dist h]
    refine ⟨?_, ?_, ?_⟩
    · intro k
      rw [groupedProbs_fst, mem_sortedKeys, List.mem_map]
    · rw [groupedProbs_fst]
      exact sortedKeys_nodup _
    · intro p hp
      exact groupedProbs_val hp
  · intro h
    rw [zone_inflow_dist h]
    refine ⟨?_, ?_⟩
    · intro k
      rw [groupedProbs_fst, mem_sortedKeys, List.mem_map]
    · intro p hp
      exact groupedProbs_val hp
  · have h : get_zone_outflow_with_fallback "Self Checkout"
        (some [⟨"Self Checkout", "Entrance", 5, "Rainy", "evening", 80, 0, 0⟩,
               ⟨"Self Checkout", "Exit", 5, "Rainy", "evening", 20, 0, 0⟩])
        (some 5) (some "Rainy") (some "evening")
        = ([("Entrance", ((80 : Nat) : Rat) / ((100 : Nat) : Rat)),
            ("Exit", ((20 : Nat) : Rat) / ((100 : Nat) : Rat))], none) := rfl
    rw [h]
    norm_num

/-- Witness for C3: the two-row Self Checkout table from the example of the claim,
with keys, values and the concrete distribution checked at that input. -/
theorem C3_witness :
    ("Entrance" ∈ (get_zone_outflow_with_fallback "Self Checkout"
        (some [⟨"Self Checkout", "Entrance", 5, "Rainy", "evening", 80, 0, 0⟩,
               ⟨"Self Checkout", "Exit", 5, "Rainy", "evening", 20, 0, 0⟩])
        (some 5) (some "Rainy") (some "evening")).1.map Prod.fst ↔
      ∃ r ∈ ((get_filtered_transitions_with_fallback
          (some [⟨"Self Checkout", "Entrance", 5, "Rainy", "evening", 80, 0, 0⟩,
                 ⟨"Self Checkout", "Exit", 5, "Rainy", "evening", 20, 0, 0⟩])
          (some 5) (some "Rainy") (some "evening")).1.filter
            (fun r => r.from_zone == "Self Checkout")), r.to_zone = "Entrance") :=
  ((C3_distribution_values "Self Checkout"
      (some [⟨"Self Checkout", "Entrance", 5, "Rainy", "evening", 80, 0, 0⟩,
             ⟨"Self Checkout", "Exit", 5, "Rainy", "evening", 20, 0, 0⟩])
      (some 5) (some "Rainy") (some "evening")).1 (by decide)).1 "Entrance"

/-- C4 counterexample: a table whose single row has the (allowed) count 0
produces a non-empty distribution whose probabilities come from dividing by a
zero total (`NaN` in the float code, 0 in the exact-rational embedding), so the
sum is not within 1e-9 of 1. -/
theorem C4_counterexample :
    (get_zone_outflow_with_fallback "A"
        (some [⟨"A", "B", 0, "Clear", "morning", 0, 0, 0⟩]) none none none).1
      = [("B", 0)] ∧
    ¬ |(((get_zone_outflow_with_fallback "A"
        (some [⟨"A", "B", 0, "Clear", "morning", 0, 0, 0⟩]) none none none).1.map
          Prod.snd).sum) - 1| ≤ 1 / 1000000000 := by
  have h : (get_zone_outflow_with_fallback "A"
      (some [⟨"A", "B", 0, "Clear", "morning", 0, 0, 0⟩]) none none none).1
      = [("B", ((0 : Nat) : Rat) / ((0 : Nat) : Rat))] := rfl
  rw [h]
  norm_num

/-- C4 as amended: when the count of every row is positive (rather than merely
non-negative), every non-empty outflow/inflow distribution sums to 1 exactly,
hence within the claimed tolerance of 1e-9. -/
theorem C4_amended_normalization :
    ∀ (zone : String) (transitions_df : Option (List Row)) (wd : Option Nat)
      (wt tb : Option String),
      (∀ r ∈ transitions_df.getD [], 0 < r.count) →
      ((get_zone_outflow_with_fallback zone transitions_df wd wt tb).1 ≠ [] →
        |(((get_zone_outflow_with_fallback zone transitions_df wd wt tb).1.map
            Prod.snd).sum) - 1| ≤ 1 / 1000000000) ∧
      ((get_zone_inflow_with_fallback zone transitions_df wd wt tb).1 ≠ [] →
        |(((get_zone_inflow_with_fallback zone transitions_df wd wt tb).1.map
            Prod.snd).sum) - 1| ≤ 1 / 1000000000) := by
  intro zone transitions_df wd wt tb hpos
  have hsubpos : ∀ r ∈ (get_filtered_transitions_with_fallback transitions_df wd wt tb).1,
      0 < r.count := by
    intro r hr
    cases transitions_df with
    | none => simp [get_filtered_transitions_with_fallback, resolveWith] at hr
    | some rows =>
      exact hpos r (resolveWith_subset codeWeatherOrder codeTimeOrder r hr)
  constructor
  · intro hne
    have hsub := zone_outflow_sub_ne hne
    rw [zone_outflow_dist hsub, groupedProbs_sum hsub
      (fun r hr => hsubpos r (List.mem_filter.mp hr).1)]
    norm_num
  · intro hne
    have hsub := zone_inflow_sub_ne hne
    rw [zone_inflow_dist hsub, groupedProbs_sum hsub
      (fun r hr => hsubpos r (List.mem_filter.mp hr).1)]
    norm_num

/-- Witness for C4 (amended) at a concrete input: a single positive-count row
gives an outflow distribution summing to 1 within the tolerance. -/
theorem C4_amended_witness :
    |(((get_zone_outflow_with_fallback "A"
        (some [⟨"A", "B", 0, "Clear", "morning", 1, 0, 0⟩]) none none none).1.map
          Prod.snd).sum) - 1| ≤ 1 / 1000000000 :=
  (C4_amended_normalization "A" (some [⟨"A", "B", 0, "Clear", "morning", 1, 0, 0⟩])
      none none none (by decide)).1 (by decide)

/-- C5: fallback monotonicity — when the exact filter over a non-empty table
already yields rows, the resolver returns exactly those rows with no notice;
in particular the all-`None` request returns the full table with no notice. -/
theorem C5_exact_match_no_relaxation :
    ∀ (rows : List Row) (wd : Option Nat) (wt tb : Option String),
      rows ≠ [] →
      (applyFilters rows wd wt tb ≠ [] →
        get_filtered_transitions_with_fallback (some rows) wd wt tb
          = (applyFilters rows wd wt tb, none)) ∧
      get_filtered_transitions_with_fallback (some rows) none none none = (rows, none) := by
  intro rows wd wt tb hne
  constructor
  · intro hex
    exact resolveWith_exact codeWeatherOrder codeTimeOrder hne hex
  · have hex : applyFilters rows none none none ≠ [] := by
      simpa [applyFilters] using hne
    have h := resolveWith_exact codeWeatherOrder codeTimeOrder hne hex
    simpa [applyFilters] using h

/-- Witness for C5 at a concrete one-row table: the exact request returns that
row with no notice, and the unfiltered request returns the whole table. -/
theorem C5_witness :
    get_filtered_transitions_with_fallback
        (some [⟨"A", "B", 3, "Clear", "morning", 7, 0, 0⟩]) none none none
      = ([⟨"A", "B", 3, "Clear", "morning", 7, 0, 0⟩], none) :=
  (C5_exact_match_no_relaxation [⟨"A", "B", 3, "Clear", "morning", 7, 0, 0⟩]
      none none none (by decide)).2

/-- C6: weekday invariance — with a requested weekday `d` every filter triple
the resolver attempts (exact attempt, the three substitution phases, the last
resort) carries exactly `weekday = some d`; the final attempt is the one that
drops the weather and time filters while keeping the weekday filter; and the
returned subset of the resolver is precisely the first non-empty result along this
attempt list. -/
theorem C6_weekday_invariance :
    ∀ (rows : List Row) (d : Nat) (wt tb : Option String),
      rows ≠ [] →
      (get_filtered_transitions_with_fallback (some rows) (some d) wt tb).1
          = scanFilters rows (attemptedFilters rows (some d) wt tb) ∧
      (∀ c ∈ attemptedFilters rows (some d) wt tb, c.1 = some d) ∧
      (attemptedFilters rows (some d) wt tb).getLast? = some (some d, none, none) := by
  intro rows d wt tb hne
  have h1 : ¬ rows.length = 0 := by simpa [List.length_eq_zero] using hne
  refine ⟨?_, ?_, ?_⟩
  · simp only [attemptedFilters, scanFilters]
    by_cases h2 : 0 < (applyFilters rows (some d) wt tb).length
    · simp only [h2, if_true, get_filtered_transitions_with_fallback, resolveWith, h1,
        if_false]
    · simp only [h2, if_false, get_filtered_transitions_with_fallback, resolveWith, h1,
        if_false]
      rw [scanFilters_append, scan_eq_try]
      rcases htc : tryCandidates rows (some d)
          (weatherCands (codeWeatherOrder wt rows) wt tb ++
           timeCands (codeTimeOrder tb rows) wt tb ++
           bothCands (codeWeatherOrder wt rows) (codeTimeOrder tb rows) (some d) wt tb)
          with _ | rn
      · have hscan : scanFilters rows [((some d : Option Nat), (none : Option String),
            (none : Option String))] = applyFilters rows (some d) none none := by
          simp only [scanFilters]
          by_cases h3 : 0 < (applyFilters rows (some d) none none).length
          · simp [h3]
          · have : applyFilters rows (some d) none none = [] := by
              rw [← List.length_eq_zero]
              omega
            simp [h3, this]
        simp only [htc, if_pos rfl, hscan]
        by_cases h3 : 0 < (applyFilters rows (some d) none none).length
        · simp [h3]
        · have h4 : applyFilters rows (some d) none none = [] := by
            rw [← List.length_eq_zero]
            omega
          simp [h3, h4]
      · have hrn : rn.1 ≠ [] := tryCandidates_some_ne htc
        simp only [htc, if_neg hrn]
  · intro c hc
    simp only [attemptedFilters, List.mem_cons, List.mem_append, List.mem_map,
      List.not_mem_nil, or_false] at hc
    rcases hc with hc | ⟨c2, _, hc2⟩ | hc
    · rw [hc]
    · rw [← hc2]
    · rw [hc]
  · simp only [attemptedFilters]
    rw [show ((some d : Option Nat), wt, tb) ::
        ((weatherCands (codeWeatherOrder wt rows) wt tb ++
          timeCands (codeTimeOrder tb rows) wt tb ++
          bothCands (codeWeatherOrder wt rows) (codeTimeOrder tb rows) (some d) wt tb).map
            (fun c => ((some d : Option Nat), c.1, c.2.1)) ++
         [((some d : Option Nat), (none : Option String), (none : Option String))])
      = (((some d : Option Nat), wt, tb) ::
         (weatherCands (codeWeatherOrder wt rows) wt tb ++
          timeCands (codeTimeOrder tb rows) wt tb ++
          bothCands (codeWeatherOrder wt rows) (codeTimeOrder tb rows) (some d) wt tb).map
            (fun c => ((some d : Option Nat), c.1, c.2.1))) ++
         [((some d : Option Nat), (none : Option String), (none : Option String))]
      from by simp]
    rw [List.getLast?_concat]

/-- Witness for C6 at a concrete one-row table with weekday 3 requested. -/
theorem C6_witness :
    (get_filtered_transitions_with_fallback
        (some [⟨"A", "B", 3, "Clear", "morning", 7, 0, 0⟩]) (some 3) none none).1
      = scanFilters [⟨"A", "B", 3, "Clear", "morning", 7, 0, 0⟩]
          (attemptedFilters [⟨"A", "B", 3, "Clear", "morning", 7, 0, 0⟩] (some 3) none none) :=
  (C6_weekday_invariance [⟨"A", "B", 3, "Clear", "morning", 7, 0, 0⟩] 3 none none
      (by decide)).1

/-- C7: the resolver distinguishes the two empty outcomes — an absent or empty
table yields an empty subset with no notice, while a non-empty table on which
every step (exact and all fallbacks) comes up empty yields the empty subset
with the terminal no-data notice. -/
theorem C7_empty_vs_exhausted :
    ∀ (wd : Option Nat) (wt tb : Option String),
      get_filtered_transitions_with_fallback none wd wt tb = ([], none) ∧
      get_filtered_transitions_with_fallback (some []) wd wt tb = ([], none) ∧
      (∀ rows : List Row, rows ≠ [] →
        (get_filtered_transitions_with_fallback (some rows) wd wt tb).1 = [] →
        get_filtered_transitions_with_fallback (some rows) wd wt tb
          = ([], some Notice.noData)) := by
  intro wd wt tb
  refine ⟨rfl, rfl, ?_⟩
  intro rows hne hres
  exact resolveWith_empty_noData codeWeatherOrder codeTimeOrder hne hres

/-- Witness for C7: a weekday-0 table queried for weekday 1 exhausts every
fallback (weekday is never substituted) and returns the no-data notice. -/
theorem C7_witness :
    get_filtered_transitions_with_fallback
        (some [⟨"A", "B", 0, "Clear", "morning", 7, 0, 0⟩]) (some 1) none none
      = ([], some Notice.noData) :=
  (C7_empty_vs_exhausted (some 1) none none).2.2
    [⟨"A", "B", 0, "Clear", "morning", 7, 0, 0⟩] (by decide) (by decide)

/-- C8 counterexample: a table whose rows leave zone `A` for `Zebra` (row 0)
then `Apple` (row 1) with equal counts yields equal probabilities, yet the
ranking lists `Apple` before `Zebra` — the order of the lexicographically
sorted group keys — not the original row order `Zebra`, `Apple`. -/
theorem C8_counterexample :
    (rankByProb (get_zone_outflow_with_fallback "A"
        (some [⟨"A", "Zebra", 0, "Clear", "morning", 50, 0, 0⟩,
               ⟨"A", "Apple", 0, "Clear", "morning", 50, 0, 0⟩]) none none none).1)
      = [("Apple", 1 / 2), ("Zebra", 1 / 2)] ∧
    ([⟨"A", "Zebra", 0, "Clear", "morning", 50, 0, 0⟩,
      (⟨"A", "Apple", 0, "Clear", "morning", 50, 0, 0⟩ : Row)].map (fun r => r.to_zone))
      = ["Zebra", "Apple"] ∧
    (rankByProb (get_zone_outflow_with_fallback "A"
        (some [⟨"A", "Zebra", 0, "Clear", "morning", 50, 0, 0⟩,
               ⟨"A", "Apple", 0, "Clear", "morning", 50, 0, 0⟩]) none none none).1).map
        Prod.fst ≠ ["Zebra", "Apple"] := by
  have h : (get_zone_outflow_with_fallback "A"
      (some [⟨"A", "Zebra", 0, "Clear", "morning", 50, 0, 0⟩,
             ⟨"A", "Apple", 0, "Clear", "morning", 50, 0, 0⟩]) none none none).1
      = [("Apple", ((50 : Nat) : Rat) / ((100 : Nat) : Rat)),
         ("Zebra", ((50 : Nat) : Rat) / ((100 : Nat) : Rat))] := rfl
  have hr : rankByProb [("Apple", ((50 : Nat) : Rat) / ((100 : Nat) : Rat)),
      ("Zebra", ((50 : Nat) : Rat) / ((100 : Nat) : Rat))]
      = [("Apple", ((50 : Nat) : Rat) / ((100 : Nat) : Rat)),
         ("Zebra", ((50 : Nat) : Rat) / ((100 : Nat) : Rat))] := by
    simp [rankByProb, insRank]
  refine ⟨?_, by decide, ?_⟩
  · rw [h, hr]
    norm_num
  · rw [h, hr]
    decide

/-- C8 as amended: ranking a fallback outflow/inflow distribution by
probability descending breaks ties by ascending code-point order of the
neighbour zone name (the order of the sorted group keys of pandas), not by original
row order. -/
theorem C8_amended_tie_order :
    ∀ (zone : String) (transitions_df : Option (List Row)) (wd : Option Nat)
      (wt tb : Option String),
      (rankByProb (get_zone_outflow_with_fallback zone transitions_df wd wt tb).1).Pairwise
        RankedInv ∧
      (rankByProb (get_zone_inflow_with_fallback zone transitions_df wd wt tb).1).Pairwise
        RankedInv := by
  intro zone transitions_df wd wt tb
  exact ⟨rankByProb_pairwise (zone_outflow_pairwise_fst zone transitions_df wd wt tb),
    rankByProb_pairwise (zone_inflow_pairwise_fst zone transitions_df wd wt tb)⟩

/-- C9: the zone-traffic aggregation of `render_journey_analysis` gives every
zone of the statistics table an entry with `Total = Outflow + Inflow`
(equivalently `Inflow + Outflow`) and `Balance = Outflow − Inflow` (positive:
source, negative: sink), and ranks entries by `Total` descending (the ranking
is a permutation of the entries, sorted by descending total). -/
theorem C9_zone_traffic_aggregation :
    ∀ zone_stats : List (String × ZoneStats),
      (buildZoneTraffic zone_stats).map (fun e => e.zone) = zone_stats.map Prod.fst ∧
      (∀ e ∈ buildZoneTraffic zone_stats,
        e.total = e.inflow + e.outflow ∧ e.balance = e.outflow - e.inflow) ∧
      (rankByTotal (buildZoneTraffic zone_stats)).Pairwise (fun a b => b.total ≤ a.total) ∧
      List.Perm (rankByTotal (buildZoneTraffic zone_stats)) (buildZoneTraffic zone_stats) := by
  intro zone_stats
  refine ⟨?_, ?_, rankByTotal_pairwise _, rankByTotal_perm _⟩
  · simp [buildZoneTraffic, List.map_map, Function.comp_def]
  · intro e he
    simp only [buildZoneTraffic, List.mem_map] at he
    rcases he with ⟨zs, _, hzs⟩
    rw [← hzs]
    exact ⟨Int.add_comm _ _, rfl⟩

/-- Witness for C9 on a concrete two-zone statistics table. -/
theorem C9_witness :
    ∀ e ∈ buildZoneTraffic [("A", (⟨3, 5⟩ : ZoneStats)), ("B", (⟨9, 2⟩ : ZoneStats))],
      e.total = e.inflow + e.outflow ∧ e.balance = e.outflow - e.inflow :=
  (C9_zone_traffic_aggregation
    [("A", (⟨3, 5⟩ : ZoneStats)), ("B", (⟨9, 2⟩ : ZoneStats))]).2.1

/-- C10: whenever the exact context filter yields rows, the fallback-aware
calculators agree with the plain calculators and report no notice. -/
theorem C10_fallback_refines_plain :
    ∀ (zone : String) (transitions_df : Option (List Row)) (wd : Option Nat)
      (wt tb : Option String),
      get_filtered_transitions transitions_df wd wt tb ≠ [] →
      get_zone_outflow_with_fallback zone transitions_df wd wt tb
        = (get_zone_outflow_probabilities zone transitions_df wd wt tb, none) ∧
      get_zone_inflow_with_fallback zone transitions_df wd wt tb
        = (get_zone_inflow_sources zone transitions_df wd wt tb, none) := by
  intro zone transitions_df wd wt tb h
  cases transitions_df with
  | none => exact absurd rfl h
  | some rows =>
    by_cases h1 : rows.length = 0
    · exact absurd (by simp [get_filtered_transitions, h1]) h
    · have hex : applyFilters rows wd wt tb ≠ [] := by
        simpa [get_filtered_transitions, h1] using h
      have hres := resolveWith_exact codeWeatherOrder codeTimeOrder
        (by simpa [List.length_eq_zero] using h1) hex
      have hgf : get_filtered_transitions (some rows) wd wt tb
          = applyFilters rows wd wt tb := by
        simp [get_filtered_transitions, h1]
      constructor
      · show (let res := get_filtered_transitions_with_fallback (some rows) wd wt tb;
          let zone_outflow := res.1.filter (fun r => r.from_zone == zone);
          if zone_outflow.length = 0 then ([], res.2)
          else (groupedProbs zone_outflow (fun r => r.to_zone), res.2))
          = (get_zone_outflow_probabilities zone (some rows) wd wt tb, none)
        rw [show get_filtered_transitions_with_fallback (some rows) wd wt tb
            = resolveWith codeWeatherOrder codeTimeOrder (some rows) wd wt tb from rfl, hres]
        simp only [get_zone_outflow_probabilities, hgf]
        by_cases h2 : ((applyFilters rows wd wt tb).filter
            (fun r => r.from_zone == zone)).length = 0
        · simp [h2]
        · simp [h2]
      · show (let res := get_filtered_transitions_with_fallback (some rows) wd wt tb;
          let zone_inflow := res.1.filter (fun r => r.to_zone == zone);
          if zone_inflow.length = 0 then ([], res.2)
          else (groupedProbs zone_inflow (fun r => r.from_zone), res.2))
          = (get_zone_inflow_sources zone (some rows) wd wt tb, none)
        rw [show get_filtered_transitions_with_fallback (some rows) wd wt tb
            = resolveWith codeWeatherOrder codeTimeOrder (some rows) wd wt tb from rfl, hres]
        simp only [get_zone_inflow_sources, hgf]
        by_cases h2 : ((applyFilters rows wd wt tb).filter
            (fun r => r.to_zone == zone)).length = 0
        · simp [h2]
        · simp [h2]

/-- Witness for C10 at a concrete one-row table with an exact match. -/
theorem C10_witness :
    get_zone_outflow_with_fallback "A"
        (some [⟨"A", "B", 3, "Clear", "morning", 7, 0, 0⟩]) (some 3) (some "Clear")
        (some "morning")
      = (get_zone_outflow_probabilities "A"
          (some [⟨"A", "B", 3, "Clear", "morning", 7, 0, 0⟩]) (some 3) (some "Clear")
          (some "morning"), none) :=
  (C10_fallback_refines_plain "A" (some [⟨"A", "B", 3, "Clear", "morning", 7, 0, 0⟩])
      (some 3) (some "Clear") (some "morning") (by decide)).1
